import Mathlib

/-!
Shallow embedding of `atcoder-problems-sql-common/src/sql/updater.rs`.

Each SQL refresh operation of the `SqlUpdater` trait is translated to a pure
Lean function over list-modelled tables.  Rows are structures mirroring the
columns the queries touch; `GROUP BY` becomes a map over the deduplicated list
of keys; `SELECT DISTINCT` becomes `List.dedup`; a SQL `JOIN` becomes a
`bind`/`filter` over the joined table.  Nullable columns are `Option`.
-/

namespace AtCoder

/-- A row of the `submissions` table (the columns used by `updater.rs`). -/
structure Submission where
  id : Nat
  user_id : String
  problem_id : String
  contest_id : String
  result : String
  epoch_second : Nat
  execution_time : Nat
  length : Nat
  language : String
  point : Option Int
deriving DecidableEq, Repr

/-- A row of the `contests` table (the columns used by `updater.rs`). -/
structure Contest where
  id : String
  start_epoch_second : Nat
  rate_change : String
deriving DecidableEq, Repr

/-- A row of the `points` table. -/
structure PointRow where
  problem_id : String
  point : Option Int
deriving DecidableEq, Repr

/-!
The language-normalization regex of `update_language_count`:
`regexp_replace(language, '((?<!Perl)\d*|) \(.*\)', '')` (no `g` flag): the
leftmost match of the pattern is removed.  A match at a position consists of a
run of digits (only allowed when the position is not immediately preceded by
the four characters `Perl`; the empty alternative carries no such constraint),
followed by a space, `(`, a greedy `.*` and `)`; the greedy `.*` extends to the
last `)` of the string.  We model this matching procedure directly.
-/

/-- Length of the leading run of ASCII digits. -/
def digitRun : List Char → Nat
  | [] => 0
  | c :: cs => if c.isDigit then digitRun cs + 1 else 0

/-- Here `before` is the reversed list of characters to the left of the current
position; the negative lookbehind `(?<!Perl)` fails exactly when the four
preceding characters are `Perl`. -/
def perlBefore (before : List Char) : Bool :=
  match before with
  | a :: b :: c :: d :: _ => a == 'l' && b == 'r' && c == 'e' && d == 'P'
  | _ => false

/-- Index of the last `)` of the list, if any (the end of the greedy `.*`). -/
def lastCloseParen : List Char → Option Nat
  | [] => none
  | c :: rest =>
    match lastCloseParen rest with
    | some j => some (j + 1)
    | none => if c == ')' then some 0 else none

/-- Attempt to match `((?<!Perl)\d*|) \(.*\)` at the current position;
returns the length of the match.  If the lookbehind fails, only the empty
alternative is available, so no digits may be consumed. -/
def tryMatchAt (before rest : List Char) : Option Nat :=
  let d := if perlBefore before then 0 else digitRun rest
  match rest.drop d with
  | ' ' :: '(' :: tail =>
    match lastCloseParen tail with
    | some j => some (d + 2 + j + 1)
    | none => none
  | _ => none

/-- Scan left to right for the leftmost match and delete it (the replacement
string is empty and `regexp_replace` without `g` replaces one match). -/
def replaceScan : List Char → List Char → List Char
  | before, [] => before.reverse
  | before, c :: cs =>
    match tryMatchAt before (c :: cs) with
    | some len => before.reverse ++ (c :: cs).drop len
    | none => replaceScan (c :: before) cs

/-- The `simplified_language` expression of `update_language_count`:
`regexp_replace(language, '((?<!Perl)\d*|) \(.*\)', '')`. -/
def simplified_language (s : String) : String :=
  ⟨replaceScan [] s.data⟩

/-!
The seven refresh queries as pure table functions.
-/

/-- The SQL pattern `user_id LIKE 'vjudge_'` of `update_rated_point_sums`:
`_` is the single-character wildcard, so the pattern matches exactly the
strings of length 7 whose first six characters are `vjudge`. -/
def matches_vjudge_like (u : String) : Bool :=
  u.data.length == 7 && u.data.take 6 == "vjudge".data

/-- Query of `update_accepted_count`: per user with an accepted submission, the number
of distinct problems solved. -/
def accepted_count (submissions : List Submission) : List (String × Nat) :=
  let ac := submissions.filter (fun s => s.result == "AC")
  ((ac.map (fun s => s.user_id)).dedup).map (fun u =>
    (u, ((ac.filter (fun s => s.user_id == u)).map (fun s => s.problem_id)).dedup.length))

/-- Query of `update_problem_solver_count`: per problem with an accepted submission,
the number of distinct users who solved it. -/
def solver (submissions : List Submission) : List (String × Nat) :=
  let ac := submissions.filter (fun s => s.result == "AC")
  ((ac.map (fun s => s.problem_id)).dedup).map (fun p =>
    (p, ((ac.filter (fun s => s.problem_id == p)).map (fun s => s.user_id)).dedup.length))

/-- The inner `SELECT DISTINCT` of `update_rated_point_sums`: distinct
`(user_id, problem_id, point)` triples over the join of accepted submissions
with `points` rows carrying a non-null point, for users not matching the
`LIKE 'vjudge_'` pattern. -/
def rps_rows (submissions : List Submission) (points : List PointRow) :
    List (String × String × Int) :=
  (submissions.flatMap (fun s =>
    points.filterMap (fun r =>
      r.point.bind (fun w =>
        if s.result == "AC" && r.problem_id == s.problem_id &&
            !matches_vjudge_like s.user_id then
          some (s.user_id, s.problem_id, w)
        else none)))).dedup

/-- Query of `update_rated_point_sums`: group the distinct triples by user and sum the
points; the row `(u, v)` models the inserted `(point_sum = v, user_id = u)`. -/
def rated_point_sum (submissions : List Submission) (points : List PointRow) :
    List (String × Int) :=
  let rows := rps_rows submissions points
  ((rows.map (fun t => t.1)).dedup).map (fun u =>
    (u, ((rows.filter (fun t => t.1 == u)).map (fun t => t.2.2)).sum))

/-- Query of `update_language_count`: per (user, simplified language), the number of
distinct problems solved. -/
def language_count (submissions : List Submission) : List (String × String × Nat) :=
  let rows := (submissions.filter (fun s => s.result == "AC")).map
    (fun s => (s.user_id, simplified_language s.language, s.problem_id))
  ((rows.map (fun r => (r.1, r.2.1))).dedup).map (fun k =>
    (k.1, k.2,
      ((rows.filter (fun r => r.1 == k.1 && r.2.1 == k.2)).map (fun r => r.2.2)).dedup.length))

/-- The joined and filtered rows of `update_great_submissions`: accepted
submissions whose contest exists and whose `epoch_second` is strictly greater
than the contest's `start_epoch_second`. -/
def great_candidates (submissions : List Submission) (contests : List Contest) :
    List Submission :=
  submissions.filter (fun s => s.result == "AC" &&
    contests.any (fun c => c.id == s.contest_id &&
      decide (c.start_epoch_second < s.epoch_second)))

/-- The row selected by `ROW_NUMBER() OVER (PARTITION BY problem_id ORDER BY
metric ASC, id ASC) = 1`: the submission minimizing `(metric, id)`
lexicographically. -/
def pick_min (metric : Submission → Nat) : List Submission → Option Submission
  | [] => none
  | s :: rest =>
    match pick_min metric rest with
    | none => some s
    | some t =>
      if metric t < metric s || (metric t == metric s && t.id < s.id) then some t
      else some s

/-- One of the three tables written by `update_great_submissions`: per problem
with a qualifying submission, the `(submission_id, problem_id, contest_id)` of
the submission minimizing the metric (ties broken by lower id). -/
def great_table (metric : Submission → Nat) (submissions : List Submission)
    (contests : List Contest) : List (Nat × String × String) :=
  let q := great_candidates submissions contests
  ((q.map (fun s => s.problem_id)).dedup).filterMap (fun p =>
    (pick_min metric (q.filter (fun s => s.problem_id == p))).map
      (fun s => (s.id, s.problem_id, s.contest_id)))

/-- The `first` table: metric `epoch_second`. -/
def first_table (submissions : List Submission) (contests : List Contest) :
    List (Nat × String × String) :=
  great_table (fun s => s.epoch_second) submissions contests

/-- The `fastest` table: metric `execution_time`. -/
def fastest_table (submissions : List Submission) (contests : List Contest) :
    List (Nat × String × String) :=
  great_table (fun s => s.execution_time) submissions contests

/-- The `shortest` table: metric `length`. -/
def shortest_table (submissions : List Submission) (contests : List Contest) :
    List (Nat × String × String) :=
  great_table (fun s => s.length) submissions contests

/-- One aggregation step of `aggregate_great_submissions`: join a great table
with `submissions` on the submission id and count, per user, the distinct
problems. -/
def submission_count_table (parent : List (Nat × String × String))
    (submissions : List Submission) : List (String × Nat) :=
  let rows := parent.flatMap (fun r =>
    (submissions.filter (fun s => s.id == r.1)).map (fun s => (s.user_id, r.2.1)))
  ((rows.map (fun r => r.1)).dedup).map (fun u =>
    (u, ((rows.filter (fun r => r.1 == u)).map (fun r => r.2)).dedup.length))

/-- The `WHERE` clause of `update_problem_points`: submissions (of any
result) whose contest started at or after epoch `1468670400` and whose
`rate_change` differs from `'-'`. -/
def pp_candidates (submissions : List Submission) (contests : List Contest) :
    List Submission :=
  submissions.filter (fun s => contests.any (fun c =>
    c.id == s.contest_id && decide (1468670400 ≤ c.start_epoch_second) &&
      c.rate_change != "-"))

/-- SQL `MAX` over a nullable column: nulls are ignored; the result is null
only when every input is. -/
def sql_max : List (Option Int) → Option Int
  | [] => none
  | o :: rest =>
    match o, sql_max rest with
    | none, m => m
    | some v, none => some v
    | some v, some m => some (max v m)

/-- The `INSERT` of `update_problem_points`: per problem with a qualifying
submission, the SQL `MAX` of the submitted points. -/
def inserted_points (submissions : List Submission) (contests : List Contest) :
    List PointRow :=
  let q := pp_candidates submissions contests
  ((q.map (fun s => s.problem_id)).dedup).map (fun p =>
    ⟨p, sql_max ((q.filter (fun s => s.problem_id == p)).map (fun s => s.point))⟩)

/-- Effect of `update_problem_points` on the `points` table: delete the rows whose
point is non-null, then insert the per-problem maxima. -/
def update_problem_points_table (old : List PointRow) (submissions : List Submission)
    (contests : List Contest) : List PointRow :=
  old.filter (fun r => r.point == none) ++ inserted_points submissions contests

/-!
Spec-side definitions, used by the refinement statements.
-/

/-- Modelled from the spec: the canonical point of a problem, read off the
`points` table (`problem_id` is its key). -/
def point_of : List PointRow → String → Option Int
  | [], _ => none
  | r :: rest, p => if r.problem_id == p then r.point else point_of rest p

/-- Modelled from the spec: the set (as a deduplicated list) of distinct
problems a user solved. -/
def solved_problems (submissions : List Submission) (u : String) : List String :=
  ((submissions.filter (fun s => s.result == "AC" && s.user_id == u)).map
    (fun s => s.problem_id)).dedup

/-- Modelled from the spec: the sum, over the distinct problems the user
solved that carry a non-null point, of that point value. -/
def spec_rated_sum (submissions : List Submission) (points : List PointRow)
    (u : String) : Int :=
  ((solved_problems submissions u).filterMap (point_of points)).sum

/-!
The database state and the seven operations of the `SqlUpdater` trait.
-/

/-- The tables of the database touched by `updater.rs`. -/
structure DBState where
  submissions : List Submission
  contests : List Contest
  points : List PointRow
  accepted_count : List (String × Nat)
  solver : List (String × Nat)
  rated_point_sum : List (String × Int)
  language_count : List (String × String × Nat)
  first : List (Nat × String × String)
  fastest : List (Nat × String × String)
  shortest : List (Nat × String × String)
  first_submission_count : List (String × Nat)
  shortest_submission_count : List (String × Nat)
  fastest_submission_count : List (String × Nat)
deriving DecidableEq, Repr

/-- Operation `SqlUpdater::update_accepted_count`. -/
def update_accepted_count (db : DBState) : DBState :=
  {db with accepted_count := accepted_count db.submissions}

/-- Operation `SqlUpdater::update_problem_solver_count`. -/
def update_problem_solver_count (db : DBState) : DBState :=
  {db with solver := solver db.submissions}

/-- Operation `SqlUpdater::update_rated_point_sums`. -/
def update_rated_point_sums (db : DBState) : DBState :=
  {db with rated_point_sum := rated_point_sum db.submissions db.points}

/-- Operation `SqlUpdater::update_language_count`. -/
def update_language_count (db : DBState) : DBState :=
  {db with language_count := language_count db.submissions}

/-- Operation `SqlUpdater::update_great_submissions`: one statement batch rewriting the
three tables `first`, `fastest`, `shortest`. -/
def update_great_submissions (db : DBState) : DBState :=
  {db with
    first := first_table db.submissions db.contests
    fastest := fastest_table db.submissions db.contests
    shortest := shortest_table db.submissions db.contests}

/-- The `first_submission_count` step of `aggregate_great_submissions`. -/
def agg_step_first (db : DBState) : DBState :=
  {db with first_submission_count := submission_count_table db.first db.submissions}

/-- The `shortest_submission_count` step of `aggregate_great_submissions`. -/
def agg_step_shortest (db : DBState) : DBState :=
  {db with shortest_submission_count := submission_count_table db.shortest db.submissions}

/-- The `fastest_submission_count` step of `aggregate_great_submissions`. -/
def agg_step_fastest (db : DBState) : DBState :=
  {db with fastest_submission_count := submission_count_table db.fastest db.submissions}

/-- Operation `SqlUpdater::aggregate_great_submissions`: three separate `batch_execute`
calls in the fixed source order `first_submission_count`,
`shortest_submission_count`, `fastest_submission_count`, each short-circuiting
via `?`.  The store outcome of each call is an oracle argument (`none` =
success, `some e` = the store rejects the batch, which then leaves its table
unchanged); the function returns the final state and the propagated error. -/
def aggregate_great_submissions (o1 o2 o3 : Option String) (db : DBState) :
    DBState × Option String :=
  match o1 with
  | some e => (db, some e)
  | none =>
    let db1 := agg_step_first db
    match o2 with
    | some e => (db1, some e)
    | none =>
      let db2 := agg_step_shortest db1
      match o3 with
      | some e => (db2, some e)
      | none => (agg_step_fastest db2, none)

/-- Operation `SqlUpdater::update_problem_points`. -/
def update_problem_points (db : DBState) : DBState :=
  {db with points := update_problem_points_table db.points db.submissions db.contests}

/-!
Concrete rows used by counterexamples and witnesses.
-/

/-- A database with every table empty. -/
def empty_db : DBState :=
  ⟨[], [], [], [], [], [], [], [], [], [], [], [], []⟩

/-- A rejected (non-`AC`) submission carrying a point, in contest `c1`. -/
def waSub : Submission :=
  ⟨1, "u1", "p1", "c1", "WA", 1500000000, 10, 20, "Rust (1.42.0)", some 100⟩

/-- A rated contest starting exactly at the cutoff epoch. -/
def ratedContest : Contest := ⟨"c1", 1468670400, "ABC"⟩

/-- An accepted submission by a plain user, in contest `c1`. -/
def acSub : Submission :=
  ⟨2, "alice", "p1", "c1", "AC", 1500000000, 10, 20, "Rust (1.42.0)", some 100⟩

/-- An accepted submission by a user whose id begins with the literal
`vjudge_` but has length 8. -/
def vjSub : Submission :=
  ⟨3, "vjudge_1", "p1", "c1", "AC", 1500000000, 10, 20, "Rust (1.42.0)", some 100⟩

/-- A contest whose `rate_change` is the no-change sentinel `'-'`. -/
def unratedContest : Contest := ⟨"c9", 0, "-"⟩

/-- An accepted submission in the unrated contest `c9`. -/
def acSubUnrated : Submission :=
  ⟨4, "bob", "p2", "c9", "AC", 50, 10, 20, "Rust (1.42.0)", some 300⟩

/-- A rejected submission carrying a null point in a rated contest: the
all-null group makes `update_problem_points` insert a null-point row. -/
def nullPointSub : Submission :=
  ⟨1, "u1", "p1", "c1", "WA", 1500000000, 10, 20, "Rust (1.42.0)", none⟩

/-- Database for the idempotence counterexample. -/
def db9 : DBState :=
  {empty_db with submissions := [nullPointSub], contests := [ratedContest]}

/-- Database for the idempotence witness: the only inserted point row is
non-null. -/
def dbW : DBState :=
  {empty_db with submissions := [acSub], contests := [ratedContest]}

/-- Scenario submission of the spec: id 1, user A, problem P, epoch 100. -/
def subA : Submission := ⟨1, "A", "P", "C", "AC", 100, 10, 10, "Rust", none⟩

/-- Scenario submission of the spec: id 2, user B, problem P, epoch 50. -/
def subB : Submission := ⟨2, "B", "P", "C", "AC", 50, 10, 10, "Rust", none⟩

/-- Scenario contest of the spec: problem P's contest starts at epoch 60. -/
def contestP : Contest := ⟨"C", 60, "ABC"⟩

/-- Tie-break scenario: two accepted submissions for problem P with equal
`execution_time` and ids 5 and 6. -/
def fsubA : Submission := ⟨5, "A", "P", "C", "AC", 100, 50, 10, "Rust", none⟩

/-- Tie-break scenario: the competing submission with the higher id. -/
def fsubB : Submission := ⟨6, "B", "P", "C", "AC", 90, 50, 5, "Rust", none⟩

/-- Contest of the tie-break scenario. -/
def contestF : Contest := ⟨"C", 0, "ABC"⟩

/-!
Helper lemmas and the claim theorems.
-/
theorem mem_rps_rows {submissions : List Submission} {points : List PointRow}
    {a b : String} {w : Int} :
    (a, b, w) ∈ rps_rows submissions points ↔
      ∃ s ∈ submissions, s.user_id = a ∧ s.problem_id = b ∧ s.result = "AC" ∧
        matches_vjudge_like a = false ∧
        ∃ r ∈ points, r.problem_id = b ∧ r.point = some w := by
  unfold rps_rows
  simp only [List.mem_dedup, List.mem_flatMap, List.mem_filterMap,
    Option.bind_eq_some, Option.ite_none_right_eq_some, Option.some.injEq,
    Bool.and_eq_true, beq_iff_eq, Bool.not_eq_true', Prod.mk.injEq]
  constructor
  · rintro ⟨s, hs, r, hr, w0, hw0, ⟨⟨hac, hpb⟩, hnv⟩, ha, hb, hw⟩
    subst ha hb hw
    exact ⟨s, hs, rfl, rfl, hac, hnv, r, hr, hpb, hw0⟩
  · rintro ⟨s, hs, ha, hb, hac, hnv, r, hr, hpb, hw0⟩
    subst ha hb
    exact ⟨s, hs, r, hr, w, hw0, ⟨⟨hac, hpb⟩, hnv⟩, rfl, rfl, rfl⟩

theorem rps_rows_nodup (submissions : List Submission) (points : List PointRow) :
    (rps_rows submissions points).Nodup :=
  List.nodup_dedup _

theorem mem_rated_point_sum_iff {submissions : List Submission}
    {points : List PointRow} {u : String} {v : Int} :
    (u, v) ∈ rated_point_sum submissions points ↔
      (∃ t ∈ rps_rows submissions points, t.1 = u) ∧
      v = (((rps_rows submissions points).filter (fun t => t.1 == u)).map
        (fun t => t.2.2)).sum := by
  unfold rated_point_sum
  simp only [List.mem_map, List.mem_dedup, Prod.mk.injEq]
  constructor
  · rintro ⟨u0, hu0, hu, hv⟩
    subst hu
    exact ⟨hu0, hv.symm⟩
  · rintro ⟨⟨t, ht, htu⟩, hv⟩
    exact ⟨u, ⟨t, ht, htu⟩, rfl, hv.symm⟩

theorem mem_pp_candidates {s : Submission} {submissions : List Submission}
    {contests : List Contest} :
    s ∈ pp_candidates submissions contests ↔
      s ∈ submissions ∧ ∃ c ∈ contests, c.id = s.contest_id ∧
        1468670400 ≤ c.start_epoch_second ∧ c.rate_change ≠ "-" := by
  unfold pp_candidates
  simp only [List.mem_filter, List.any_eq_true, Bool.and_eq_true, beq_iff_eq,
    decide_eq_true_eq, bne_iff_ne]
  constructor
  · rintro ⟨hs, c, hc, ⟨hid, hcut⟩, hrc⟩
    exact ⟨hs, c, hc, hid, hcut, hrc⟩
  · rintro ⟨hs, c, hc, hid, hcut, hrc⟩
    exact ⟨hs, c, hc, ⟨hid, hcut⟩, hrc⟩

theorem mem_inserted_points {p : String} {w : Option Int}
    {submissions : List Submission} {contests : List Contest} :
    (⟨p, w⟩ : PointRow) ∈ inserted_points submissions contests ↔
      (∃ s ∈ pp_candidates submissions contests, s.problem_id = p) ∧
      w = sql_max (((pp_candidates submissions contests).filter
        (fun s => s.problem_id == p)).map (fun s => s.point)) := by
  unfold inserted_points
  simp only [List.mem_map, List.mem_dedup, PointRow.mk.injEq]
  constructor
  · rintro ⟨p0, hp0, hpe, hwe⟩
    subst hpe
    exact ⟨hp0, hwe.symm⟩
  · rintro ⟨hex, hw⟩
    exact ⟨p, hex, rfl, hw.symm⟩

theorem mem_great_candidates {s : Submission} {submissions : List Submission}
    {contests : List Contest} :
    s ∈ great_candidates submissions contests ↔
      s ∈ submissions ∧ s.result = "AC" ∧
        ∃ c ∈ contests, c.id = s.contest_id ∧
          c.start_epoch_second < s.epoch_second := by
  unfold great_candidates
  simp only [List.mem_filter, List.any_eq_true, Bool.and_eq_true, beq_iff_eq,
    decide_eq_true_eq, and_assoc]

theorem mem_solved_problems {p : String} {submissions : List Submission}
    {u : String} :
    p ∈ solved_problems submissions u ↔
      ∃ s ∈ submissions, s.user_id = u ∧ s.problem_id = p ∧ s.result = "AC" := by
  unfold solved_problems
  simp only [List.mem_dedup, List.mem_map, List.mem_filter, Bool.and_eq_true,
    beq_iff_eq]
  constructor
  · rintro ⟨s, ⟨hs, hac, hu⟩, hp⟩
    exact ⟨s, hs, hu, hp, hac⟩
  · rintro ⟨s, hs, hu, hp, hac⟩
    exact ⟨s, ⟨hs, hac, hu⟩, hp⟩

theorem point_of_eq_some_iff {points : List PointRow} {p : String} {w : Int}
    (hnd : (points.map (fun r => r.problem_id)).Nodup) :
    point_of points p = some w ↔
      ∃ r ∈ points, r.problem_id = p ∧ r.point = some w := by
  induction points with
  | nil => simp [point_of]
  | cons r0 rest ih =>
    simp only [List.map_cons, List.nodup_cons] at hnd
    obtain ⟨hnotin, hndr⟩ := hnd
    unfold point_of
    by_cases hid : r0.problem_id = p
    · simp only [hid, beq_self_eq_true, if_true]
      constructor
      · intro hw
        exact ⟨r0, List.mem_cons_self _ _, hid, hw⟩
      · rintro ⟨r, hr, hrp, hrw⟩
        rcases List.mem_cons.mp hr with h | h
        · subst h; exact hrw
        · exfalso
          apply hnotin
          rw [hid, ← hrp]
          exact List.mem_map.mpr ⟨r, h, rfl⟩
    · simp only [beq_iff_eq, hid, if_false]
      rw [ih hndr]
      constructor
      · rintro ⟨r, hr, hrp, hrw⟩
        exact ⟨r, List.mem_cons_of_mem _ hr, hrp, hrw⟩
      · rintro ⟨r, hr, hrp, hrw⟩
        rcases List.mem_cons.mp hr with h | h
        · subst h; exact absurd hrp hid
        · exact ⟨r, h, hrp, hrw⟩

theorem pick_min_eq_none {metric : Submission → Nat} {l : List Submission} :
    pick_min metric l = none ↔ l = [] := by
  cases l with
  | nil => simp [pick_min]
  | cons s rest =>
    simp only [pick_min]
    cases pick_min metric rest with
    | none => simp
    | some t =>
      by_cases hc : metric t < metric s ∨ (metric t = metric s ∧ t.id < s.id) <;>
        simp [hc]

theorem pick_min_mem {metric : Submission → Nat} {l : List Submission}
    {s : Submission} (h : pick_min metric l = some s) : s ∈ l := by
  induction l with
  | nil => simp [pick_min] at h
  | cons a rest ih =>
    rw [pick_min] at h
    cases hp : pick_min metric rest with
    | none =>
      rw [hp] at h
      simp only [Option.some.injEq] at h
      subst h
      exact List.mem_cons_self _ _
    | some t =>
      rw [hp] at h
      dsimp only at h
      by_cases hc : (decide (metric t < metric a) ||
          (metric t == metric a && decide (t.id < a.id))) = true
      · rw [if_pos hc] at h
        simp only [Option.some.injEq] at h
        subst h
        exact List.mem_cons_of_mem _ (ih hp)
      · rw [if_neg hc] at h
        simp only [Option.some.injEq] at h
        subst h
        exact List.mem_cons_self _ _

theorem pick_min_min {metric : Submission → Nat} {l : List Submission}
    {s : Submission} (h : pick_min metric l = some s) :
    ∀ t ∈ l, metric s < metric t ∨ (metric s = metric t ∧ s.id ≤ t.id) := by
  induction l generalizing s with
  | nil => simp [pick_min] at h
  | cons a rest ih =>
    rw [pick_min] at h
    cases hp : pick_min metric rest with
    | none =>
      rw [hp] at h
      simp only [Option.some.injEq] at h
      subst h
      have hrest : rest = [] := pick_min_eq_none.mp hp
      subst hrest
      intro t ht
      rcases List.mem_cons.mp ht with h1 | h1
      · subst h1; exact Or.inr ⟨rfl, le_refl _⟩
      · simp at h1
    | some t0 =>
      rw [hp] at h
      dsimp only at h
      by_cases hc : (decide (metric t0 < metric a) ||
          (metric t0 == metric a && decide (t0.id < a.id))) = true
      · rw [if_pos hc] at h
        simp only [Option.some.injEq] at h
        subst h
        simp only [Bool.or_eq_true, decide_eq_true_eq, Bool.and_eq_true,
          beq_iff_eq] at hc
        intro t ht
        rcases List.mem_cons.mp ht with h1 | h1
        · subst h1
          rcases hc with h2 | ⟨h2, h3⟩
          · exact Or.inl h2
          · exact Or.inr ⟨h2, Nat.le_of_lt h3⟩
        · exact ih hp t h1
      · rw [if_neg hc] at h
        simp only [Option.some.injEq] at h
        subst h
        simp only [Bool.or_eq_true, decide_eq_true_eq, Bool.and_eq_true,
          beq_iff_eq, not_or, not_and] at hc
        obtain ⟨hc1, hc2⟩ := hc
        intro t ht
        rcases List.mem_cons.mp ht with h1 | h1
        · subst h1; exact Or.inr ⟨rfl, le_refl _⟩
        · have h4 := ih hp t h1
          have h5 : metric a ≤ metric t0 := Nat.le_of_not_lt hc1
          rcases h4 with h6 | ⟨h6, h7⟩
          · exact Or.inl (Nat.lt_of_le_of_lt h5 h6)
          · rcases Nat.lt_or_ge (metric a) (metric t0) with h8 | h8
            · exact Or.inl (h6 ▸ h8)
            · have h9 : metric a = metric t0 := Nat.le_antisymm h5 h8
              have h10 : a.id ≤ t0.id := Nat.le_of_not_lt (hc2 h9.symm)
              exact Or.inr ⟨h9.trans h6, Nat.le_trans h10 h7⟩

theorem mem_great_table {metric : Submission → Nat} {submissions : List Submission}
    {contests : List Contest} {row : Nat × String × String}
    (h : row ∈ great_table metric submissions contests) :
    ∃ s ∈ great_candidates submissions contests,
      row = (s.id, s.problem_id, s.contest_id) := by
  unfold great_table at h
  rcases List.mem_filterMap.mp h with ⟨p, hp, hrow⟩
  rcases Option.map_eq_some.mp hrow with ⟨s, hpick, hrow2⟩
  have hsmem := pick_min_mem hpick
  have hs := (List.mem_filter.mp hsmem).1
  exact ⟨s, hs, hrow2.symm⟩

theorem key_filter_of_filterMap (g : String → Option (Nat × String × String)) :
    ∀ (l : List String), l.Nodup →
      (∀ x ∈ l, ∀ row, g x = some row → row.2.1 = x) →
      ∀ p ∈ l, ∀ rowp, g p = some rowp →
        (l.filterMap g).filter (fun row => row.2.1 == p) = [rowp] := by
  intro l
  induction l with
  | nil => intro _ _ p hp; simp at hp
  | cons x l ih =>
    intro hnd hkey p hp rowp hrowp
    have hndl := (List.nodup_cons.mp hnd).2
    have hxnotin := (List.nodup_cons.mp hnd).1
    rcases List.mem_cons.mp hp with hpx | hpl
    · subst hpx
      rw [List.filterMap_cons, hrowp]
      have hkeyp : rowp.2.1 = p := hkey p (List.mem_cons_self _ _) rowp hrowp
      rw [List.filter_cons]
      simp only [hkeyp, beq_self_eq_true, if_true]
      have hrest : (l.filterMap g).filter (fun row => row.2.1 == p) = [] := by
        rw [List.filter_eq_nil_iff]
        intro row hrow
        rcases List.mem_filterMap.mp hrow with ⟨y, hy, hgy⟩
        have : row.2.1 = y := hkey y (List.mem_cons_of_mem _ hy) row hgy
        simp only [this, beq_iff_eq]
        intro hyp
        exact hxnotin (hyp ▸ hy)
      rw [hrest]
    · rw [List.filterMap_cons]
      have hpnex : p ≠ x := by
        intro he
        exact hxnotin (he ▸ hpl)
      cases hgx : g x with
      | none => exact ih hndl (fun y hy => hkey y (List.mem_cons_of_mem _ hy)) p hpl rowp hrowp
      | some rowx =>
        rw [List.filter_cons]
        have hkeyx : rowx.2.1 = x := hkey x (List.mem_cons_self _ _) rowx hgx
        simp only [hkeyx, beq_iff_eq]
        rw [if_neg (by simpa using fun he => hpnex he.symm)]
        exact ih hndl (fun y hy => hkey y (List.mem_cons_of_mem _ hy)) p hpl rowp hrowp

theorem great_table_spec (metric : Submission → Nat) (submissions : List Submission)
    (contests : List Contest) (p : String)
    (hnd : (submissions.map (fun s => s.id)).Nodup)
    (hex : ∃ s ∈ great_candidates submissions contests, s.problem_id = p) :
    ∃ s ∈ great_candidates submissions contests,
      s.problem_id = p ∧
      (great_table metric submissions contests).filter (fun row => row.2.1 == p) =
        [(s.id, s.problem_id, s.contest_id)] ∧
      ∀ t ∈ great_candidates submissions contests, t.problem_id = p → t ≠ s →
        metric s < metric t ∨ (metric s = metric t ∧ s.id < t.id) := by
  obtain ⟨s0, hs0, hs0p⟩ := hex
  set q := great_candidates submissions contests with hq
  set qp := q.filter (fun s => s.problem_id == p) with hqp
  have hs0qp : s0 ∈ qp := by
    rw [hqp, List.mem_filter]
    exact ⟨hs0, by simp [hs0p]⟩
  cases hpick : pick_min metric qp with
  | none =>
    rw [pick_min_eq_none] at hpick
    rw [hpick] at hs0qp
    simp at hs0qp
  | some s =>
    have hsqp := pick_min_mem hpick
    have hsq : s ∈ q := (List.mem_filter.mp hsqp).1
    have hsp : s.problem_id = p := by
      have := (List.mem_filter.mp hsqp).2
      simpa using this
    refine ⟨s, hsq, hsp, ?_, ?_⟩
    · -- the filter of the table is the singleton of s's row
      unfold great_table
      apply key_filter_of_filterMap
      · exact List.nodup_dedup _
      · intro x hx row hrow
        rcases Option.map_eq_some.mp hrow with ⟨t, hpickt, hrowt⟩
        have htmem := pick_min_mem hpickt
        have := (List.mem_filter.mp htmem).2
        simp only [beq_iff_eq] at this
        rw [← hrowt]
        exact this
      · rw [List.mem_dedup]
        exact List.mem_map.mpr ⟨s0, hs0, hs0p⟩
      · rw [← hqp, hpick]
        rfl
    · intro t htq htp htne
      have htqp : t ∈ qp := by
        rw [hqp, List.mem_filter]
        exact ⟨htq, by simp [htp]⟩
      have hle := pick_min_min hpick t htqp
      rcases hle with h1 | ⟨h1, h2⟩
      · exact Or.inl h1
      · have hidne : s.id ≠ t.id := by
          intro he
          apply htne
          have hsub : s ∈ submissions := (mem_great_candidates.mp hsq).1
          have htsub : t ∈ submissions := (mem_great_candidates.mp htq).1
          exact (List.inj_on_of_nodup_map hnd htsub hsub he.symm)
        exact Or.inr ⟨h1, Nat.lt_of_le_of_ne h2 hidne⟩

theorem filterMap_point_embed (points : List PointRow) (u : String)
    (l : List String) :
    ((l.filterMap (fun p => (point_of points p).map (fun w => (u, p, w)))).map
      (fun t => t.2.2)) = l.filterMap (point_of points) := by
  induction l with
  | nil => simp
  | cons p l ih =>
    rw [List.filterMap_cons, List.filterMap_cons]
    cases hpo : point_of points p with
    | none => simpa using ih
    | some w => simpa using ih

theorem rated_point_sum_eq_spec (submissions : List Submission)
    (points : List PointRow) (u : String) (v : Int)
    (hnd : (points.map (fun r => r.problem_id)).Nodup)
    (h : (u, v) ∈ rated_point_sum submissions points) :
    v = spec_rated_sum submissions points u := by
  obtain ⟨⟨t0, ht0, ht0u⟩, hv⟩ := mem_rated_point_sum_iff.mp h
  obtain ⟨a0, b0, w0⟩ := t0
  simp only at ht0u
  subst ht0u
  obtain ⟨s0, hs0, hsu, hsb, hsac, hnvu, r0, hr0, hr0p, hr0w⟩ :=
    mem_rps_rows.mp ht0
  have hLnd : ((rps_rows submissions points).filter
      (fun t => t.1 == a0)).Nodup := (rps_rows_nodup _ _).filter _
  have hMnd : ((solved_problems submissions a0).filterMap
      (fun p => (point_of points p).map (fun w => (a0, p, w)))).Nodup := by
    apply List.Nodup.filterMap
    · intro p1 p2 t ht1 ht2
      rcases Option.map_eq_some.mp ht1 with ⟨w1, _, he1⟩
      rcases Option.map_eq_some.mp ht2 with ⟨w2, _, he2⟩
      have : p1 = t.2.1 := by rw [← he1]
      have h2 : p2 = t.2.1 := by rw [← he2]
      rw [this, h2]
    · exact List.nodup_dedup _
  have hperm : List.Perm
      ((rps_rows submissions points).filter (fun t => t.1 == a0))
      ((solved_problems submissions a0).filterMap
        (fun p => (point_of points p).map (fun w => (a0, p, w)))) := by
    rw [List.perm_ext_iff_of_nodup hLnd hMnd]
    intro t
    obtain ⟨a, b, w⟩ := t
    constructor
    · intro htL
      have h1 := List.mem_filter.mp htL
      have hau : a = a0 := by simpa using h1.2
      subst hau
      obtain ⟨s, hs, hsu2, hsb2, hac2, _, r, hr, hrp, hrw⟩ :=
        mem_rps_rows.mp h1.1
      apply List.mem_filterMap.mpr
      refine ⟨b, mem_solved_problems.mpr ⟨s, hs, hsu2, hsb2, hac2⟩, ?_⟩
      have hpo : point_of points b = some w :=
        (point_of_eq_some_iff hnd).mpr ⟨r, hr, hrp, hrw⟩
      rw [hpo]
      rfl
    · intro htM
      rcases List.mem_filterMap.mp htM with ⟨p, hp, hpsi⟩
      rcases Option.map_eq_some.mp hpsi with ⟨w2, hpo, heq⟩
      have ha : a = a0 := by
        have := congrArg Prod.fst heq
        simpa using this.symm
      have hb : b = p := by
        have := congrArg (fun x => x.2.1) heq
        simpa using this.symm
      have hw : w = w2 := by
        have := congrArg (fun x => x.2.2) heq
        simpa using this.symm
      subst ha hb hw
      obtain ⟨s, hs, hsu3, hsp3, hac3⟩ := mem_solved_problems.mp hp
      obtain ⟨r, hr, hrp, hrw⟩ := (point_of_eq_some_iff hnd).mp hpo
      apply List.mem_filter.mpr
      refine ⟨mem_rps_rows.mpr ⟨s, hs, hsu3, hsp3, hac3, hnvu, r, hr, hrp, hrw⟩, ?_⟩
      simp
  rw [hv]
  calc ((((rps_rows submissions points).filter (fun t => t.1 == a0)).map
        (fun t => t.2.2)).sum)
      = ((((solved_problems submissions a0).filterMap
          (fun p => (point_of points p).map (fun w => (a0, p, w)))).map
            (fun t => t.2.2)).sum) := (hperm.map _).sum_eq
    _ = spec_rated_sum submissions points a0 := by
        rw [filterMap_point_embed]
        rfl

theorem update_problem_points_table_idem (old : List PointRow)
    (submissions : List Submission) (contests : List Contest)
    (h : ∀ r ∈ inserted_points submissions contests, r.point ≠ none) :
    update_problem_points_table
        (update_problem_points_table old submissions contests) submissions contests =
      update_problem_points_table old submissions contests := by
  unfold update_problem_points_table
  rw [List.filter_append]
  have h1 : (old.filter (fun r => r.point == none)).filter
      (fun r => r.point == none) = old.filter (fun r => r.point == none) := by
    apply List.filter_eq_self.mpr
    intro r hr
    exact (List.mem_filter.mp hr).2
  have h2 : (inserted_points submissions contests).filter
      (fun r => r.point == none) = [] := by
    apply List.filter_eq_nil_iff.mpr
    intro r hr
    simpa using h r hr
  rw [h1, h2, List.append_nil]

/-- C1 (amended): `update_problem_points` deletes the non-null point rows and
inserts, per problem having a submission in a contest that started on/after
epoch 1468670400 with `rate_change` different from `'-'`, the SQL `MAX` of the
submitted points of all such submissions, with no restriction on `result`. -/
theorem update_problem_points_characterization
    (old : List PointRow) (submissions : List Submission) (contests : List Contest)
    (p : String) (w : Option Int) :
    (⟨p, w⟩ : PointRow) ∈ update_problem_points_table old submissions contests ↔
      ((⟨p, w⟩ : PointRow) ∈ old ∧ w = none) ∨
      ((∃ s ∈ submissions, s.problem_id = p ∧ ∃ c ∈ contests,
          c.id = s.contest_id ∧ 1468670400 ≤ c.start_epoch_second ∧
          c.rate_change ≠ "-") ∧
        w = sql_max (((pp_candidates submissions contests).filter
          (fun s => s.problem_id == p)).map (fun s => s.point))) := by
  unfold update_problem_points_table
  rw [List.mem_append, List.mem_filter]
  constructor
  · rintro (⟨hold, hnull⟩ | hins)
    · exact Or.inl ⟨hold, by simpa using hnull⟩
    · right
      obtain ⟨⟨s, hs, hsp⟩, hw⟩ := mem_inserted_points.mp hins
      obtain ⟨hssub, c, hc, hcid, hcut, hrc⟩ := mem_pp_candidates.mp hs
      exact ⟨⟨s, hssub, hsp, c, hc, hcid, hcut, hrc⟩, hw⟩
  · rintro (⟨hold, hnull⟩ | ⟨⟨s, hssub, hsp, c, hc, hcid, hcut, hrc⟩, hw⟩)
    · exact Or.inl ⟨hold, by simpa using hnull⟩
    · right
      exact mem_inserted_points.mpr
        ⟨⟨s, mem_pp_candidates.mpr ⟨hssub, c, hc, hcid, hcut, hrc⟩, hsp⟩, hw⟩

theorem update_problem_points_characterization_witness :
    (⟨"p1", some 100⟩ : PointRow) ∈
      update_problem_points_table [] [waSub] [ratedContest] :=
  (update_problem_points_characterization [] [waSub] [ratedContest] "p1"
      (some 100)).mpr
    (Or.inr ⟨⟨waSub, by decide, rfl, ratedContest, by decide, rfl, by decide,
      by decide⟩, by decide⟩)

theorem update_problem_points_counterexample :
    waSub.result ≠ "AC" ∧
    update_problem_points_table [] [waSub] [ratedContest] =
      [⟨"p1", some 100⟩] := by decide

/-- C2 (amended): no row of `rated_point_sum` belongs to a user matching the
SQL pattern `LIKE 'vjudge_'`, i.e. a user id of length exactly 7 starting with
`vjudge`; longer ids starting with the literal `vjudge_` are not excluded. -/
theorem rated_point_sum_excludes_vjudge_pattern
    (submissions : List Submission) (points : List PointRow) (u : String)
    (v : Int) (h : (u, v) ∈ rated_point_sum submissions points) :
    matches_vjudge_like u = false := by
  obtain ⟨⟨t, ht, htu⟩, _⟩ := mem_rated_point_sum_iff.mp h
  obtain ⟨a, b, w⟩ := t
  simp only at htu
  subst htu
  obtain ⟨s, _, _, _, _, hnv, _⟩ := mem_rps_rows.mp ht
  exact hnv

theorem rated_point_sum_excludes_vjudge_pattern_witness :
    matches_vjudge_like "alice" = false :=
  rated_point_sum_excludes_vjudge_pattern [acSub] [⟨"p1", some 100⟩]
    "alice" 100 (by decide)

theorem rated_point_sum_vjudge_counterexample :
    "vjudge_1".data.take 7 = "vjudge_".data ∧
    rated_point_sum [vjSub] [⟨"p1", some 100⟩] = [("vjudge_1", 100)] := by decide

/-- C3 (amended): the normalization maps "Perl (5.26.1)" to "Perl" and
"Python (3.8.2)" to "Python" (no digits precede the parenthetical),
but both "C++14 (Clang 10.0.0)" and "C++17 (GCC)" to "C++" (the trailing
digits are stripped together with the parenthetical, since they are not
preceded by `Perl`). -/
theorem simplified_language_examples :
    simplified_language "Perl (5.26.1)" = "Perl" ∧
    simplified_language "C++14 (Clang 10.0.0)" = "C++" ∧
    simplified_language "Python (3.8.2)" = "Python" ∧
    simplified_language "C++17 (GCC)" = "C++" := by decide

theorem simplified_language_counterexample :
    ¬(simplified_language "Perl (5.26.1)" = "Perl" ∧
      simplified_language "C++14 (Clang 10.0.0)" = "C++14" ∧
      simplified_language "Python (3.8.2)" = "Python" ∧
      simplified_language "C++17 (GCC)" = "C++") := by decide

/-- C4 (amended): `update_rated_point_sums` never consults the contests
table; an accepted submission on a problem with a non-null point by a
non-excluded user always yields a row for that user, regardless of any
contest's `rate_change`. -/
theorem rated_point_sum_no_contest_filter
    (submissions : List Submission) (points : List PointRow) (s : Submission)
    (w : Int) (hs : s ∈ submissions) (hac : s.result = "AC")
    (hp : (⟨s.problem_id, some w⟩ : PointRow) ∈ points)
    (hnv : matches_vjudge_like s.user_id = false) :
    ∃ v : Int, (s.user_id, v) ∈ rated_point_sum submissions points := by
  refine ⟨_, mem_rated_point_sum_iff.mpr ⟨⟨(s.user_id, s.problem_id, w), ?_, rfl⟩,
    rfl⟩⟩
  exact mem_rps_rows.mpr
    ⟨s, hs, rfl, rfl, hac, hnv, ⟨s.problem_id, some w⟩, hp, rfl, rfl⟩

theorem rated_point_sum_no_contest_filter_witness :
    ∃ v : Int, ("bob", v) ∈ rated_point_sum [acSubUnrated] [⟨"p2", some 300⟩] :=
  rated_point_sum_no_contest_filter [acSubUnrated] [⟨"p2", some 300⟩]
    acSubUnrated 300 (by decide) (by decide) (by decide) (by decide)

theorem rated_point_sum_unrated_counterexample :
    unratedContest.rate_change = "-" ∧
    acSubUnrated.contest_id = unratedContest.id ∧
    acSubUnrated.result = "AC" ∧
    rated_point_sum [acSubUnrated] [⟨"p2", some 300⟩] = [("bob", 300)] := by decide

theorem rated_point_sum_eq_spec_witness :
    (100 : Int) = spec_rated_sum [acSub] [⟨"p1", some 100⟩] "alice" :=
  rated_point_sum_eq_spec [acSub] [⟨"p1", some 100⟩] "alice" 100
    (by decide) (by decide)

/-- C6: a row of any great-submission table references a submission whose
`epoch_second` is strictly greater than its contest's `start_epoch_second`;
in the spec scenario the `first` table is exactly the row of id 1. -/
theorem great_submissions_time_filter :
    (∀ (submissions : List Submission) (contests : List Contest)
        (metric : Submission → Nat) (row : Nat × String × String),
        (submissions.map (fun s => s.id)).Nodup →
        (contests.map (fun c => c.id)).Nodup →
        row ∈ great_table metric submissions contests →
        ∀ s ∈ submissions, s.id = row.1 →
          ∀ c ∈ contests, c.id = s.contest_id →
            c.start_epoch_second < s.epoch_second) ∧
    first_table [subA, subB] [contestP] = [(1, "P", "C")] := by
  constructor
  · intro submissions contests metric row hnds hndc hrow s hs hsid c hc hcid
    obtain ⟨s0, hs0q, hrow0⟩ := mem_great_table hrow
    obtain ⟨hs0sub, hs0ac, c0, hc0, hc0id, hc0lt⟩ := mem_great_candidates.mp hs0q
    have hss0 : s = s0 := by
      apply List.inj_on_of_nodup_map hnds hs hs0sub
      rw [hsid, hrow0]
    subst hss0
    have hcc0 : c = c0 := by
      apply List.inj_on_of_nodup_map hndc hc hc0
      rw [hcid, hc0id]
    subst hcc0
    exact hc0lt
  · decide

theorem great_submissions_time_filter_witness :
    contestP.start_epoch_second < subA.epoch_second :=
  great_submissions_time_filter.1 [subA, subB] [contestP]
    (fun s => s.epoch_second) (1, "P", "C") (by decide) (by decide) (by decide)
    subA (by decide) rfl contestP (by decide) rfl

/-- C7: per problem with a qualifying accepted submission each of the three
tables holds exactly one row, the qualifying submission minimizing the
category metric, ties broken by the lower submission id. -/
theorem great_tables_select_min (submissions : List Submission)
    (contests : List Contest) (p : String)
    (hnd : (submissions.map (fun s => s.id)).Nodup)
    (hex : ∃ s ∈ great_candidates submissions contests, s.problem_id = p) :
    (∃ s ∈ great_candidates submissions contests, s.problem_id = p ∧
      (first_table submissions contests).filter (fun row => row.2.1 == p) =
        [(s.id, s.problem_id, s.contest_id)] ∧
      ∀ t ∈ great_candidates submissions contests, t.problem_id = p → t ≠ s →
        s.epoch_second < t.epoch_second ∨
          (s.epoch_second = t.epoch_second ∧ s.id < t.id)) ∧
    (∃ s ∈ great_candidates submissions contests, s.problem_id = p ∧
      (fastest_table submissions contests).filter (fun row => row.2.1 == p) =
        [(s.id, s.problem_id, s.contest_id)] ∧
      ∀ t ∈ great_candidates submissions contests, t.problem_id = p → t ≠ s →
        s.execution_time < t.execution_time ∨
          (s.execution_time = t.execution_time ∧ s.id < t.id)) ∧
    (∃ s ∈ great_candidates submissions contests, s.problem_id = p ∧
      (shortest_table submissions contests).filter (fun row => row.2.1 == p) =
        [(s.id, s.problem_id, s.contest_id)] ∧
      ∀ t ∈ great_candidates submissions contests, t.problem_id = p → t ≠ s →
        s.length < t.length ∨ (s.length = t.length ∧ s.id < t.id)) :=
  ⟨great_table_spec (fun s => s.epoch_second) submissions contests p hnd hex,
   great_table_spec (fun s => s.execution_time) submissions contests p hnd hex,
   great_table_spec (fun s => s.length) submissions contests p hnd hex⟩

theorem great_tables_select_min_witness :
    ∃ s ∈ great_candidates [fsubA, fsubB] [contestF], s.problem_id = "P" ∧
      (fastest_table [fsubA, fsubB] [contestF]).filter
        (fun row => row.2.1 == "P") = [(s.id, s.problem_id, s.contest_id)] ∧
      ∀ t ∈ great_candidates [fsubA, fsubB] [contestF], t.problem_id = "P" →
        t ≠ s →
        s.execution_time < t.execution_time ∨
          (s.execution_time = t.execution_time ∧ s.id < t.id) :=
  (great_tables_select_min [fsubA, fsubB] [contestF] "P" (by decide)
    (by decide)).2.1

/-- C8: the three sub-steps run in order; the first store failure is returned
and the sub-tables of the steps not reached keep their pre-call contents; when
all three succeed the operation returns success. -/
theorem aggregate_great_submissions_error_flow (db : DBState)
    (o1 o2 o3 : Option String) :
    ((o1 = none ∧ o2 = none ∧ o3 = none) →
      aggregate_great_submissions o1 o2 o3 db =
        (agg_step_fastest (agg_step_shortest (agg_step_first db)), none)) ∧
    (∀ e, o1 = some e →
      aggregate_great_submissions o1 o2 o3 db = (db, some e)) ∧
    (∀ e, o1 = none → o2 = some e →
      aggregate_great_submissions o1 o2 o3 db = (agg_step_first db, some e) ∧
      (agg_step_first db).shortest_submission_count =
        db.shortest_submission_count ∧
      (agg_step_first db).fastest_submission_count =
        db.fastest_submission_count) ∧
    (∀ e, o1 = none → o2 = none → o3 = some e →
      aggregate_great_submissions o1 o2 o3 db =
        (agg_step_shortest (agg_step_first db), some e) ∧
      (agg_step_shortest (agg_step_first db)).fastest_submission_count =
        db.fastest_submission_count) := by
  refine ⟨?_, ?_, ?_, ?_⟩
  · rintro ⟨rfl, rfl, rfl⟩; rfl
  · rintro e rfl; rfl
  · rintro e rfl rfl; exact ⟨rfl, rfl, rfl⟩
  · rintro e rfl rfl rfl; exact ⟨rfl, rfl⟩

theorem aggregate_great_submissions_error_flow_witness :
    aggregate_great_submissions (some "boom") none none empty_db =
      (empty_db, some "boom") :=
  (aggregate_great_submissions_error_flow empty_db (some "boom") none
    none).2.1 "boom" rfl

/-- C10: the sub-steps are separate store calls in the source order
`first_submission_count`, `shortest_submission_count`,
`fastest_submission_count`; a failure on the second leaves the first freshly
recomputed and the other two at their pre-call contents. -/
theorem aggregate_great_submissions_order (db : DBState) (e : String)
    (o3 : Option String) :
    aggregate_great_submissions none (some e) o3 db =
      ({db with first_submission_count :=
          submission_count_table db.first db.submissions}, some e) ∧
    (aggregate_great_submissions none (some e) o3 db).1.shortest_submission_count =
      db.shortest_submission_count ∧
    (aggregate_great_submissions none (some e) o3 db).1.fastest_submission_count =
      db.fastest_submission_count :=
  ⟨rfl, rfl, rfl⟩

/-- C9 (amended): the first six refresh operations are idempotent; the seventh,
`update_problem_points`, is idempotent provided every row it inserts carries a
non-null point (an all-null qualifying group otherwise inserts a null row that
survives the next delete and is inserted again). -/
theorem refresh_idempotent (db : DBState) :
    update_accepted_count (update_accepted_count db) = update_accepted_count db ∧
    update_problem_solver_count (update_problem_solver_count db) =
      update_problem_solver_count db ∧
    update_rated_point_sums (update_rated_point_sums db) =
      update_rated_point_sums db ∧
    update_language_count (update_language_count db) = update_language_count db ∧
    update_great_submissions (update_great_submissions db) =
      update_great_submissions db ∧
    aggregate_great_submissions none none none
        (aggregate_great_submissions none none none db).1 =
      aggregate_great_submissions none none none db ∧
    ((∀ r ∈ inserted_points db.submissions db.contests, r.point ≠ none) →
      update_problem_points (update_problem_points db) =
        update_problem_points db) := by
  refine ⟨rfl, rfl, rfl, rfl, rfl, rfl, ?_⟩
  intro h
  have hT := update_problem_points_table_idem db.points db.submissions
    db.contests h
  show ({db with points := (update_problem_points_table
      (update_problem_points_table db.points db.submissions db.contests)
      db.submissions db.contests)} : DBState) =
    {db with points := (update_problem_points_table db.points db.submissions
      db.contests)}
  rw [hT]

theorem refresh_idempotent_witness :
    update_problem_points (update_problem_points dbW) =
      update_problem_points dbW :=
  (refresh_idempotent dbW).2.2.2.2.2.2 (by decide)

theorem refresh_idempotent_counterexample :
    update_problem_points (update_problem_points db9) ≠
      update_problem_points db9 := by decide


end AtCoder
